import Mathlib

/-!
Shallow embedding of the `abort-signal` library (`src/index.ts`) over the
platform `AbortController` / `AbortSignal` primitive, together with proofs
of the library's behavioural properties.

A signal is modelled by its single observable facet: the optional abort
reason (`none` while not aborted; once aborted the reason is set and, by
the platform's idempotent-abort semantics, never changes).  Each library
operation is translated into (a) a pure initialisation function that
mirrors the synchronous body of the TypeScript method, and (b) a step
function describing how the resulting listener/timer structure reacts to
the events that can reach it afterwards (an input signal's controller
being aborted, a timer tick, a DOM event dispatch).  Event delivery is
single-threaded, exactly as in the JavaScript execution model.
-/

namespace AbortSig

/-- Abort reasons: the typed `TimeoutError` manufactured by `timeout`
(carrying its message string), a dispatched event object (identified by a
number), or an arbitrary caller-supplied value. -/
inductive Reason where
  | timeoutError (msg : String)
  | eventObj (id : Nat)
  | custom (n : Nat)
deriving DecidableEq

/-- An `AbortSignal`: `reason = none` while not aborted, `some r` once
aborted with reason `r`. -/
structure Sig where
  reason : Option Reason
deriving DecidableEq

/-- `signal.aborted`. -/
def Sig.aborted (s : Sig) : Bool := s.reason.isSome

/-- `controller.abort(r)` acting on the controller's signal: a no-op when
the signal is already aborted (the platform's at-most-once semantics),
otherwise it sets the reason. -/
def ctrlAbort (s : Sig) (r : Reason) : Sig :=
  if s.aborted then s else ⟨some r⟩

/-! ### `AbortManager.any` (src/index.ts lines 56-80)

The loop body: for each input in order, if it is already aborted the fresh
controller is aborted with that input's reason and the method returns (the
remaining inputs are neither scanned nor subscribed); otherwise the shared
`onAbort` listener is attached and scanning continues.  `anyLoop` returns
the output signal together with the per-input listener-attached flags at
the moment the method returns. -/

def anyLoop : List Sig → Sig × List Bool
  | [] => (⟨none⟩, [])
  | s :: rest =>
    if s.aborted then
      (⟨s.reason⟩, List.replicate (rest.length + 1) false)
    else
      let p := anyLoop rest
      (p.1, true :: p.2)

/-- Runtime state of one `any` combination: the input signals, which of
them still carry the shared `onAbort` listener, and the output signal. -/
structure AnySt where
  inputs : List Sig
  listeners : List Bool
  output : Sig
deriving DecidableEq

/-- `Abort.any(signals)`: state at the instant the call returns. -/
def anyInit (sigs : List Sig) : AnySt :=
  ⟨sigs, (anyLoop sigs).2, (anyLoop sigs).1⟩

/-- Delivery of "input `i`'s own controller is aborted with reason `r`".
If that input is already aborted nothing happens (no `abort` event fires
again).  Otherwise the input transitions; if the shared listener is still
attached there, `onAbort` runs: `controller.abort(this.reason)` followed by
`cleanup()`, which removes the listener from every input. -/
def anyStep (st : AnySt) (i : Nat) (r : Reason) : AnySt :=
  let s := st.inputs.getD i ⟨none⟩
  if s.aborted then st
  else
    let inputs := st.inputs.set i (ctrlAbort s r)
    if st.listeners.getD i false then
      ⟨inputs, st.listeners.map (fun _ => false), ctrlAbort st.output r⟩
    else
      ⟨inputs, st.listeners, st.output⟩

/-- Folding a sequence of input-abort events over an `any` state. -/
def anyRun (st : AnySt) : List (Nat × Reason) → AnySt
  | [] => st
  | e :: es => anyRun (anyStep st e.1 e.2) es

/-! ### `AbortManager.follow` (src/index.ts lines 149-164)

`follow(parentSignal)` creates a fresh controller; if the parent is already
aborted it aborts the child with the parent's reason and returns, otherwise
it attaches a `once` listener on the parent that runs
`controller.abort(parentSignal.reason)`. -/

/-- Runtime state of one `follow` link: the parent signal, the child
controller's signal, and whether the `once` listener is still on the
parent. -/
structure FollowSt where
  parent : Sig
  child : Sig
  listenerAttached : Bool
deriving DecidableEq

/-- `Abort.follow(parentSignal)`: state at the instant the call returns.
In the pre-aborted branch the fresh child controller is aborted with
`parentSignal.reason`. -/
def follow (parentSignal : Sig) : FollowSt :=
  if parentSignal.aborted then ⟨parentSignal, ⟨parentSignal.reason⟩, false⟩
  else ⟨parentSignal, ⟨none⟩, true⟩

/-- Events that can reach a `follow` link afterwards: the parent's owner
aborting the parent controller, or the caller aborting the returned child
controller. -/
inductive FollowEv where
  | parentAbort (r : Reason)
  | childAbort (r : Reason)
deriving DecidableEq

/-- One event on a `follow` link.  A parent abort fires the `once`
listener (if still attached), which aborts the child with the parent's
now-current reason; a child abort is the platform's idempotent
`controller.abort` on the child. -/
def followStep (st : FollowSt) : FollowEv → FollowSt
  | .parentAbort r =>
    if st.parent.aborted then st
    else if st.listenerAttached then ⟨⟨some r⟩, ctrlAbort st.child r, false⟩
    else ⟨⟨some r⟩, st.child, st.listenerAttached⟩
  | .childAbort r => ⟨st.parent, ctrlAbort st.child r, st.listenerAttached⟩

/-- Folding a sequence of events over a `follow` state. -/
def followRun (st : FollowSt) : List FollowEv → FollowSt
  | [] => st
  | e :: es => followRun (followStep st e) es

/-! ### `AbortManager.manageLifecycle` (src/index.ts lines 106-126)

If the signal is already aborted the callback runs synchronously with
`signal.reason` and nothing is subscribed; otherwise a `once` listener
`() => onAbort(signal.reason)` is attached.  `calls` records each
invocation of the callback together with the `signal.reason` value it was
handed. -/

/-- Runtime state of one lifecycle binding: the observed signal, whether
the `once` listener is still subscribed, and the log of callback
invocations. -/
structure LifecycleSt where
  sig : Sig
  subscribed : Bool
  calls : List (Option Reason)
deriving DecidableEq

/-- `Abort.manageLifecycle(options)`: state at the instant the call
returns. -/
def manageLifecycle (sig : Sig) : LifecycleSt :=
  if sig.aborted then ⟨sig, false, [sig.reason]⟩
  else ⟨sig, true, []⟩

/-- Delivery of "the signal's own controller is aborted with reason `r`":
a no-op if the signal is already aborted; otherwise the signal
transitions and, if subscribed, the `once` listener fires with the
signal's (new) reason and removes itself. -/
def lifecycleStep (st : LifecycleSt) (r : Reason) : LifecycleSt :=
  if st.sig.aborted then st
  else
    let sig2 : Sig := ⟨some r⟩
    if st.subscribed then ⟨sig2, false, st.calls ++ [sig2.reason]⟩
    else ⟨sig2, st.subscribed, st.calls⟩

/-- Folding a sequence of abort attempts over a lifecycle state. -/
def lifecycleRun (st : LifecycleSt) : List Reason → LifecycleSt
  | [] => st
  | r :: rs => lifecycleRun (lifecycleStep st r) rs

/-! ### `AbortManager.timeout` (src/index.ts lines 30-36) and
`TimeoutError` (src/errors.ts)

`timeout(milliseconds)` creates a fresh controller and schedules
`controller.abort(new TimeoutError(...))` after `milliseconds`.  Time is
modelled as a millisecond tick counter: the scheduled action fires on the
first tick at which at least `milliseconds` have elapsed (a `setTimeout`
callback never runs synchronously, so a zero delay still waits for the
next tick). -/

/-- The message `timeout` gives its `TimeoutError`. -/
def timeoutMessage (milliseconds : Nat) : String :=
  "Signal timed out after " ++ toString milliseconds ++ "ms"

/-- Runtime state of one `timeout` signal: the captured duration, the
controller's signal, whether the timer callback has run, and elapsed
milliseconds. -/
structure TimeoutSt where
  milliseconds : Nat
  sig : Sig
  fired : Bool
  now : Nat
deriving DecidableEq

/-- `Abort.timeout(milliseconds)`: state at the instant the call
returns. -/
def timeout (milliseconds : Nat) : TimeoutSt :=
  ⟨milliseconds, ⟨none⟩, false, 0⟩

/-- One millisecond elapses; the pending timer fires once its delay is
reached, aborting the signal with the `TimeoutError`. -/
def timeoutStep (st : TimeoutSt) : TimeoutSt :=
  if st.fired = false ∧ st.milliseconds ≤ st.now + 1 then
    ⟨st.milliseconds,
      ctrlAbort st.sig (Reason.timeoutError (timeoutMessage st.milliseconds)),
      true, st.now + 1⟩
  else ⟨st.milliseconds, st.sig, st.fired, st.now + 1⟩

/-- `n` milliseconds elapse. -/
def timeoutRun (st : TimeoutSt) : Nat → TimeoutSt
  | 0 => st
  | n + 1 => timeoutStep (timeoutRun st n)

/-! ### `AbortManager.fromEvent` (src/index.ts lines 181-191)

`fromEvent(target, eventName)` creates a fresh controller and registers a
`once` listener for `eventName` on the target; the listener aborts the
controller with the dispatched event object. -/

/-- Runtime state of one `fromEvent` signal: the controller's signal,
whether the `once` listener is still registered on the target, and the
event name it was registered for. -/
structure FromEventSt where
  sig : Sig
  listenerActive : Bool
  eventName : String
deriving DecidableEq

/-- `Abort.fromEvent(target, eventName)`: state at the instant the call
returns. -/
def fromEvent (eventName : String) : FromEventSt :=
  ⟨⟨none⟩, true, eventName⟩

/-- Dispatch of event `nm` with event object `ev` on the target: the
listener fires only if it is still registered and the name matches; it
aborts the controller with the event object and, being `once`,
deregisters itself. -/
def fromEventStep (st : FromEventSt) (nm : String) (ev : Reason) : FromEventSt :=
  if st.listenerActive = true ∧ nm = st.eventName then
    ⟨ctrlAbort st.sig ev, false, st.eventName⟩
  else st

/-! ### `AbortManager.never` (src/index.ts lines 207-214)

`never()` lazily allocates one controller, caches its signal in the
private `#neverSignal` field and returns the cached signal thereafter.
The controller stays local to the method body and `controller.abort()` is
never called on it, so no abort path — neither an exposed controller nor a
timer or listener closure — targets the cached signal.  The world model
tracks, for each signal the manager has allocated, whether any such abort
path exists (`abortable`); the library's other operations all allocate
controllers some party can abort (the caller for `follow`, the timer for
`timeout`, the shared listener for `any`, the event listener for
`fromEvent`). -/

/-- A signal in the manager world: its reason, and whether any abort path
targets it. -/
structure MSig where
  reason : Option Reason
  abortable : Bool
deriving DecidableEq

/-- Idempotent `controller.abort` on a manager-world signal. -/
def MSig.abort (s : MSig) (r : Reason) : MSig :=
  if s.reason.isSome then s else ⟨some r, s.abortable⟩

/-- The manager world: the `#neverSignal` cache (index of the cached
signal, if allocated) and all signals allocated so far (a signal's
identity is its index). -/
structure MgrWorld where
  neverSignal : Option Nat
  sigs : List MSig
deriving DecidableEq

/-- The world at process start: no cached sentinel, no signals. -/
def mgrInit : MgrWorld := ⟨none, []⟩

/-- `Abort.never()`: returns the index of the sentinel signal and the
updated world.  On the first call it allocates a fresh, non-abortable
signal and caches it; thereafter it returns the cache unchanged. -/
def neverOp (w : MgrWorld) : Nat × MgrWorld :=
  match w.neverSignal with
  | some i => (i, w)
  | none => (w.sigs.length, ⟨some w.sigs.length, w.sigs ++ [⟨none, false⟩]⟩)

/-- Operations on the manager world: a `never()` call, an allocation by
any of the other five operations (whose controller some party can abort),
and the delivery of an abort on signal `i` — which can only occur through
an existing abort path. -/
inductive MgrOp where
  | never
  | newAbortable
  | abort (i : Nat) (r : Reason)
deriving DecidableEq

/-- One operation on the manager world.  An abort on a signal with no
abort path cannot occur and is a no-op. -/
def mgrStep (w : MgrWorld) : MgrOp → MgrWorld
  | .never => (neverOp w).2
  | .newAbortable => ⟨w.neverSignal, w.sigs ++ [⟨none, true⟩]⟩
  | .abort i r =>
    if (w.sigs.getD i ⟨none, false⟩).abortable then
      ⟨w.neverSignal, w.sigs.set i ((w.sigs.getD i ⟨none, false⟩).abort r)⟩
    else w

/-- Folding a sequence of operations over the manager world. -/
def mgrRun (w : MgrWorld) : List MgrOp → MgrWorld
  | [] => w
  | op :: ops => mgrRun (mgrStep w op) ops

/-! ## List helpers -/

theorem getD_replicate {α : Type} (a d : α) (n j : Nat) :
    (List.replicate n a).getD j d = if j < n then a else d := by
  induction n generalizing j with
  | zero => simp
  | succ n ih =>
    cases j with
    | zero => simp [List.replicate_succ]
    | succ j =>
      have := ih j
      simp only [List.getD_eq_getElem?_getD] at this
      simp [List.replicate_succ, this, Nat.succ_lt_succ_iff]

theorem getD_map_const_false (l : List Bool) (j : Nat) :
    (l.map (fun _ => false)).getD j false = false := by
  induction l generalizing j with
  | nil => simp
  | cons b bs ih =>
    cases j with
    | zero => simp
    | succ j => simp [ih j]

theorem getD_concat {α : Type} (l : List α) (a d : α) :
    (l ++ [a]).getD l.length d = a := by
  induction l with
  | nil => simp
  | cons x xs ih => simp [ih]

theorem getD_set_ne {α : Type} (l : List α) (j i : Nat) (x d : α) (h : j ≠ i) :
    (l.set j x).getD i d = l.getD i d := by
  induction l generalizing i j with
  | nil => simp
  | cons y ys ih =>
    cases j with
    | zero =>
      cases i with
      | zero => exact absurd rfl h
      | succ i => simp
    | succ j =>
      cases i with
      | zero => simp
      | succ i => simpa using ih j i (fun hj => h (by omega))

/-! ## `any`: behaviour lemmas -/

theorem anyLoop_live (sigs : List Sig) (h : ∀ s ∈ sigs, s.aborted = false) :
    anyLoop sigs = (⟨none⟩, List.replicate sigs.length true) := by
  induction sigs with
  | nil => rfl
  | cons s rest ih =>
    have hs : s.aborted = false := h s (by simp)
    have hrest := ih (fun t ht => h t (by simp [ht]))
    simp [anyLoop, hs, hrest, List.replicate_succ]

theorem anyStep_of_listeners_off (st : AnySt)
    (h : ∀ j, st.listeners.getD j false = false) (i : Nat) (r : Reason) :
    (anyStep st i r).listeners = st.listeners ∧ (anyStep st i r).output = st.output := by
  have hl : st.listeners.getD i false = false := h i
  unfold anyStep
  cases habort : (st.inputs.getD i ⟨none⟩).aborted with
  | true =>
    simp only [List.getD_eq_getElem?_getD] at habort
    simp [habort]
  | false =>
    simp only [List.getD_eq_getElem?_getD] at habort hl
    simp [habort, hl]

theorem anyRun_of_listeners_off (es : List (Nat × Reason)) (st : AnySt)
    (h : ∀ j, st.listeners.getD j false = false) :
    (anyRun st es).listeners = st.listeners ∧ (anyRun st es).output = st.output := by
  induction es generalizing st with
  | nil => exact ⟨rfl, rfl⟩
  | cons e es ih =>
    have hstep := anyStep_of_listeners_off st h e.1 e.2
    have hoff : ∀ j, (anyStep st e.1 e.2).listeners.getD j false = false := by
      intro j; rw [hstep.1]; exact h j
    have := ih (anyStep st e.1 e.2) hoff
    exact ⟨by rw [anyRun, this.1, hstep.1], by rw [anyRun, this.2, hstep.2]⟩

/-- Claim C8: `any([])` returns a signal that never transitions to aborted:
after the empty-collection call, every sequence of input-abort events
leaves the output signal unaborted. -/
theorem any_empty_never_aborts (events : List (Nat × Reason)) :
    (anyRun (anyInit []) events).output.aborted = false := by
  have hoff : ∀ j, (anyInit []).listeners.getD j false = false := by
    intro j; simp [anyInit, anyLoop]
  rw [(anyRun_of_listeners_off events (anyInit []) hoff).2]
  rfl

/-! ## `follow`: behaviour lemmas -/

theorem followStep_child_aborted (st : FollowSt) (e : FollowEv)
    (h : st.child.aborted = true) : (followStep st e).child = st.child := by
  cases e with
  | parentAbort r =>
    simp only [followStep]
    split
    · rfl
    · split
      · simp [ctrlAbort, h]
      · rfl
  | childAbort r => simp [followStep, ctrlAbort, h]

theorem followRun_child_aborted (es : List FollowEv) (st : FollowSt)
    (h : st.child.aborted = true) : (followRun st es).child = st.child := by
  induction es generalizing st with
  | nil => rfl
  | cons e es ih =>
    have hstep := followStep_child_aborted st e h
    rw [followRun, ih (followStep st e) (by rw [hstep]; exact h), hstep]

/-- Claim C4: `follow(parent)` on an already-aborted parent returns a
controller whose signal is aborted with the parent's reason before the
call returns; on a live parent, the child is not aborted at return time
and becomes aborted with the parent's exact reason at the parent-abort
event. -/
theorem follow_mirrors_parent (r0 r : Reason) :
    (follow ⟨some r0⟩).child = ⟨some r0⟩ ∧
    (follow ⟨none⟩).child.aborted = false ∧
    (followStep (follow ⟨none⟩) (.parentAbort r)).child = ⟨some r⟩ := by
  refine ⟨?_, ?_, ?_⟩ <;> simp [follow, followStep, ctrlAbort, Sig.aborted]

/-- Claim C10: on a live parent, aborting the returned child controller
with reason `rc` first makes the child's signal aborted with `rc`; a later
parent abort with a different reason `rp`, and any further events, leave
the child's state unchanged. -/
theorem follow_child_abort_wins (rc rp : Reason) (rest : List FollowEv) :
    (followStep (follow ⟨none⟩) (.childAbort rc)).child = ⟨some rc⟩ ∧
    (followStep (followStep (follow ⟨none⟩) (.childAbort rc)) (.parentAbort rp)).child
      = ⟨some rc⟩ ∧
    (followRun (followStep (followStep (follow ⟨none⟩) (.childAbort rc))
      (.parentAbort rp)) rest).child = ⟨some rc⟩ := by
  have h1 : (followStep (follow ⟨none⟩) (.childAbort rc)).child = ⟨some rc⟩ := by
    simp [follow, followStep, ctrlAbort, Sig.aborted]
  have h2 : (followStep (followStep (follow ⟨none⟩) (.childAbort rc))
      (.parentAbort rp)).child = ⟨some rc⟩ := by
    rw [followStep_child_aborted _ _ (by rw [h1]; rfl), h1]
  exact ⟨h1, h2, by rw [followRun_child_aborted rest _ (by rw [h2]; rfl), h2]⟩

/-! ## `manageLifecycle`: behaviour lemmas -/

theorem lifecycleStep_aborted (st : LifecycleSt) (r : Reason)
    (h : st.sig.aborted = true) : lifecycleStep st r = st := by
  simp [lifecycleStep, h]

theorem lifecycleRun_aborted (rs : List Reason) (st : LifecycleSt)
    (h : st.sig.aborted = true) : lifecycleRun st rs = st := by
  induction rs with
  | nil => rfl
  | cons r rs ih => rw [lifecycleRun, lifecycleStep_aborted st r h, ih]

/-- Claim C5: `manageLifecycle` on an already-aborted signal invokes the
callback synchronously with the current reason and creates no
subscription; on a live signal it invokes the callback exactly once, with
the signal's reason, at the abort event — further abort attempts change
nothing. -/
theorem manageLifecycle_exactly_once (r0 r : Reason) (rest : List Reason) :
    manageLifecycle ⟨some r0⟩ = ⟨⟨some r0⟩, false, [some r0]⟩ ∧
    manageLifecycle ⟨none⟩ = ⟨⟨none⟩, true, []⟩ ∧
    lifecycleRun (lifecycleStep (manageLifecycle ⟨none⟩) r) rest
      = ⟨⟨some r⟩, false, [some r]⟩ := by
  have hstep : lifecycleStep (manageLifecycle ⟨none⟩) r
      = ⟨⟨some r⟩, false, [some r]⟩ := by
    simp [manageLifecycle, lifecycleStep, Sig.aborted]
  refine ⟨by simp [manageLifecycle, Sig.aborted], by simp [manageLifecycle, Sig.aborted], ?_⟩
  rw [hstep, lifecycleRun_aborted rest _ (by rfl)]

/-- Claim C7: `fromEvent` returns a not-yet-aborted signal; the first
dispatch of the named event aborts it with the dispatched event object as
reason; a second dispatch has no further effect (the listener was
registered one-shot and removed itself). -/
theorem fromEvent_first_dispatch_once (nm : String) (ev ev2 : Reason) :
    (fromEvent nm).sig.aborted = false ∧
    (fromEventStep (fromEvent nm) nm ev).sig = ⟨some ev⟩ ∧
    fromEventStep (fromEventStep (fromEvent nm) nm ev) nm ev2
      = fromEventStep (fromEvent nm) nm ev := by
  refine ⟨rfl, ?_, ?_⟩ <;> simp [fromEvent, fromEventStep, ctrlAbort, Sig.aborted]

/-- Claim C2: on a non-empty collection of live signals, the first input
abort (input `i`, reason `r`) aborts the combined signal with `r`, the
shared listener is removed from every input, and no subsequent input abort
changes the combined signal again. -/
theorem any_first_abort_sticks (sigs : List Sig) (i : Nat) (r : Reason)
    (hlive : ∀ s ∈ sigs, s.aborted = false) (hi : i < sigs.length)
    (rest : List (Nat × Reason)) :
    (anyStep (anyInit sigs) i r).output = ⟨some r⟩ ∧
    (anyStep (anyInit sigs) i r).listeners = List.replicate sigs.length false ∧
    (anyRun (anyStep (anyInit sigs) i r) rest).output = ⟨some r⟩ := by
  have hinit : anyInit sigs = ⟨sigs, List.replicate sigs.length true, ⟨none⟩⟩ := by
    simp [anyInit, anyLoop_live sigs hlive]
  have hsi : (sigs.getD i ⟨none⟩).aborted = false := by
    rw [List.getD_eq_getElem sigs _ hi]
    exact hlive _ (List.getElem_mem hi)
  have hli : (List.replicate sigs.length true).getD i false = true := by
    rw [getD_replicate]; simp [hi]
  have hstep : anyStep (anyInit sigs) i r
      = ⟨sigs.set i ⟨some r⟩, List.replicate sigs.length false, ⟨some r⟩⟩ := by
    rw [hinit]
    unfold anyStep
    simp only [List.getD_eq_getElem?_getD, Sig.aborted] at hsi hli
    simp [hsi, hli, ctrlAbort, Sig.aborted]
  have hoff : ∀ j, (anyStep (anyInit sigs) i r).listeners.getD j false = false := by
    intro j
    rw [hstep, getD_replicate]
    simp
  refine ⟨by rw [hstep], by rw [hstep], ?_⟩
  rw [(anyRun_of_listeners_off rest _ hoff).2, hstep]

/-- Witness for C2 at a concrete input: two live signals, input 0 aborts
first, then input 1 aborts with a different reason. -/
theorem any_first_abort_sticks_witness :
    (∀ s ∈ [(⟨none⟩ : Sig), ⟨none⟩], s.aborted = false) ∧
    (0 < ([(⟨none⟩ : Sig), ⟨none⟩]).length) ∧
    ((anyStep (anyInit [⟨none⟩, ⟨none⟩]) 0 (Reason.custom 1)).output
        = ⟨some (Reason.custom 1)⟩ ∧
      (anyStep (anyInit [⟨none⟩, ⟨none⟩]) 0 (Reason.custom 1)).listeners
        = List.replicate ([(⟨none⟩ : Sig), ⟨none⟩]).length false ∧
      (anyRun (anyStep (anyInit [⟨none⟩, ⟨none⟩]) 0 (Reason.custom 1))
          [(1, Reason.custom 2)]).output = ⟨some (Reason.custom 1)⟩) :=
  ⟨by decide, by decide,
    any_first_abort_sticks [⟨none⟩, ⟨none⟩] 0 (Reason.custom 1)
      (by decide) (by decide) [(1, Reason.custom 2)]⟩

/-! ## `any`: the already-aborted short-circuit path -/

theorem anyLoop_short_circuit (sigs : List Sig) (k : Nat) (r : Reason)
    (hk : (sigs.getD k ⟨none⟩).reason = some r)
    (hbefore : ∀ j, j < k → (sigs.getD j ⟨none⟩).aborted = false) :
    anyLoop sigs
      = (⟨some r⟩, List.replicate k true ++ List.replicate (sigs.length - k) false) := by
  induction sigs generalizing k with
  | nil => simp at hk
  | cons s rest ih =>
    cases k with
    | zero =>
      have hs : s.reason = some r := by simpa using hk
      have hab : s.aborted = true := by simp [Sig.aborted, hs]
      simp [anyLoop, hab, hs]
    | succ k =>
      have hs : s.aborted = false := by simpa using hbefore 0 (Nat.succ_pos k)
      have hk2 : (rest.getD k ⟨none⟩).reason = some r := by simpa using hk
      have hb2 : ∀ j, j < k → (rest.getD j ⟨none⟩).aborted = false := by
        intro j hj
        simpa using hbefore (j + 1) (by omega)
      simp [anyLoop, hs, ih k hk2 hb2, List.replicate_succ, Nat.succ_sub_succ]

/-- The claim C1 as frozen is false on the code: taking the short-circuit
path (input 1 pre-aborted, output aborted at return time) still leaves the
shared listener attached to input 0, which was subscribed before the
pre-aborted input was reached and is not removed on this path. -/
theorem any_short_circuit_listener_attached :
    (anyInit [⟨none⟩, ⟨some (Reason.custom 0)⟩]).output.aborted = true ∧
    (anyInit [⟨none⟩, ⟨some (Reason.custom 0)⟩]).listeners.getD 0 false = true := by
  decide

/-- Claim C1 (amended): if input `k` is the first already-aborted input
(reason `r`), `any` returns a signal aborted synchronously with `r`, no
listener is attached to input `k` or to any later input, but the shared
listener remains attached to each of the `k` live inputs scanned before
it. -/
theorem any_short_circuit_first_aborted (sigs : List Sig) (k : Nat) (r : Reason)
    (hk : (sigs.getD k ⟨none⟩).reason = some r)
    (hbefore : ∀ j, j < k → (sigs.getD j ⟨none⟩).aborted = false) :
    (anyInit sigs).output = ⟨some r⟩ ∧
    (anyInit sigs).listeners
      = List.replicate k true ++ List.replicate (sigs.length - k) false := by
  have h := anyLoop_short_circuit sigs k r hk hbefore
  exact ⟨by simp [anyInit, h], by simp [anyInit, h]⟩

/-- Witness for the amended C1 at a concrete input: a live input followed
by a pre-aborted one. -/
theorem any_short_circuit_first_aborted_witness :
    (([(⟨none⟩ : Sig), ⟨some (Reason.custom 0)⟩].getD 1 ⟨none⟩).reason
        = some (Reason.custom 0)) ∧
    ((anyInit [⟨none⟩, ⟨some (Reason.custom 0)⟩]).output = ⟨some (Reason.custom 0)⟩ ∧
      (anyInit [⟨none⟩, ⟨some (Reason.custom 0)⟩]).listeners
        = List.replicate 1 true
            ++ List.replicate (([(⟨none⟩ : Sig), ⟨some (Reason.custom 0)⟩]).length - 1) false) :=
  ⟨by decide,
    any_short_circuit_first_aborted [⟨none⟩, ⟨some (Reason.custom 0)⟩] 1 (Reason.custom 0)
      (by decide)
      (by intro j hj; have hj0 : j = 0 := by omega
          subst hj0; decide)⟩

/-! ## `timeout`: elapsed-time characterisation -/

theorem timeoutRun_char (d n : Nat) :
    timeoutRun (timeout d) n =
      if d ≤ n ∧ 1 ≤ n then
        ⟨d, ⟨some (Reason.timeoutError (timeoutMessage d))⟩, true, n⟩
      else ⟨d, ⟨none⟩, false, n⟩ := by
  induction n with
  | zero => simp [timeoutRun, timeout]
  | succ n ih =>
    rw [timeoutRun, ih]
    by_cases hc : d ≤ n ∧ 1 ≤ n
    · rw [if_pos hc, if_pos (show d ≤ n + 1 ∧ 1 ≤ n + 1 by omega)]
      simp [timeoutStep]
    · rw [if_neg hc]
      by_cases hd : d ≤ n + 1
      · rw [if_pos (show d ≤ n + 1 ∧ 1 ≤ n + 1 by omega)]
        simp [timeoutStep, hd, ctrlAbort, Sig.aborted]
      · rw [if_neg (show ¬(d ≤ n + 1 ∧ 1 ≤ n + 1) by omega)]
        simp [timeoutStep, hd]

/-- Claim C6: `timeout(d)` returns a not-yet-aborted signal; after `n`
elapsed milliseconds the signal is aborted exactly when the duration has
passed (and the timer had a tick to run on), with a `TimeoutError` whose
message embeds the duration in the format the code uses, and is unaborted
at every earlier instant. -/
theorem timeout_aborts_after_duration (d n : Nat) :
    (timeout d).sig.aborted = false ∧
    (timeoutRun (timeout d) n).sig =
      (if d ≤ n ∧ 1 ≤ n then
        ⟨some (Reason.timeoutError ("Signal timed out after " ++ toString d ++ "ms"))⟩
      else (⟨none⟩ : Sig)) := by
  refine ⟨rfl, ?_⟩
  rw [timeoutRun_char]
  by_cases hc : d ≤ n ∧ 1 ≤ n
  · rw [if_pos hc, if_pos hc]
    rfl
  · rw [if_neg hc, if_neg hc]

/-! ## `never`: the lazily-cached sentinel stays unaborted -/

/-- The cached sentinel, when allocated, is a real signal and no abort
path targets it.  (The default `⟨none, true⟩` makes an out-of-range index
violate the invariant, so the invariant also pins the index in range.) -/
def NeverInv (w : MgrWorld) : Prop :=
  ∀ i, w.neverSignal = some i → w.sigs.getD i ⟨none, true⟩ = ⟨none, false⟩

theorem neverInv_init : NeverInv mgrInit := by
  intro i h
  simp [mgrInit] at h

theorem neverInv_lt (w : MgrWorld) (hw : NeverInv w) (i : Nat)
    (h : w.neverSignal = some i) : i < w.sigs.length := by
  by_contra hge
  have hbad := hw i h
  rw [List.getD_eq_default _ _ (by omega)] at hbad
  simp at hbad

theorem neverInv_step (w : MgrWorld) (op : MgrOp) (hw : NeverInv w) :
    NeverInv (mgrStep w op) := by
  cases op with
  | never =>
    intro i h
    cases hns : w.neverSignal with
    | some j =>
      have hid : mgrStep w .never = w := by simp [mgrStep, neverOp, hns]
      rw [hid] at h ⊢
      exact hw i h
    | none =>
      have hnew : mgrStep w .never
          = ⟨some w.sigs.length, w.sigs ++ [⟨none, false⟩]⟩ := by
        simp [mgrStep, neverOp, hns]
      rw [hnew] at h ⊢
      have hlen : w.sigs.length = i := by
        have h2 : some w.sigs.length = some i := h
        exact Option.some.inj h2
      subst hlen
      exact getD_concat w.sigs ⟨none, false⟩ ⟨none, true⟩
  | newAbortable =>
    intro i h
    have hi : w.neverSignal = some i := h
    have hlt := neverInv_lt w hw i hi
    show (w.sigs ++ [(⟨none, true⟩ : MSig)]).getD i ⟨none, true⟩ = ⟨none, false⟩
    rw [List.getD_append _ _ _ _ hlt]
    exact hw i hi
  | abort j r =>
    intro i h
    by_cases hab : (w.sigs.getD j ⟨none, false⟩).abortable = true
    · have hstep : mgrStep w (.abort j r)
          = ⟨w.neverSignal, w.sigs.set j ((w.sigs.getD j ⟨none, false⟩).abort r)⟩ := by
        simp only [mgrStep]
        rw [if_pos hab]
      rw [hstep] at h ⊢
      have hi : w.neverSignal = some i := h
      have hlt := neverInv_lt w hw i hi
      have hold := hw i hi
      have hji : j ≠ i := by
        intro hji
        subst hji
        rw [List.getD_eq_getElem w.sigs _ hlt] at hab
        rw [List.getD_eq_getElem w.sigs _ hlt] at hold
        rw [hold] at hab
        simp at hab
      show (w.sigs.set j ((w.sigs.getD j ⟨none, false⟩).abort r)).getD i ⟨none, true⟩
          = ⟨none, false⟩
      rw [getD_set_ne _ _ _ _ _ hji]
      exact hold
    · have hid : mgrStep w (.abort j r) = w := by
        simp only [mgrStep]
        rw [if_neg hab]
      rw [hid] at h ⊢
      exact hw i h

theorem neverInv_run (ops : List MgrOp) (w : MgrWorld) (hw : NeverInv w) :
    NeverInv (mgrRun w ops) := by
  induction ops generalizing w with
  | nil => exact hw
  | cons op ops ih => exact ih (mgrStep w op) (neverInv_step w op hw)

theorem mgrStep_neverSignal_some (w : MgrWorld) (op : MgrOp) (i : Nat)
    (h : w.neverSignal = some i) : (mgrStep w op).neverSignal = some i := by
  cases op with
  | never => simp [mgrStep, neverOp, h]
  | newAbortable => exact h
  | abort j r =>
    by_cases hab : (w.sigs.getD j ⟨none, false⟩).abortable = true
    · have hstep : mgrStep w (.abort j r)
          = ⟨w.neverSignal, w.sigs.set j ((w.sigs.getD j ⟨none, false⟩).abort r)⟩ := by
        simp only [mgrStep]
        rw [if_pos hab]
      rw [hstep]
      exact h
    · have hid : mgrStep w (.abort j r) = w := by
        simp only [mgrStep]
        rw [if_neg hab]
      rw [hid]
      exact h

theorem mgrRun_neverSignal_some (ops : List MgrOp) (w : MgrWorld) (i : Nat)
    (h : w.neverSignal = some i) : (mgrRun w ops).neverSignal = some i := by
  induction ops generalizing w with
  | nil => exact h
  | cons op ops ih => exact ih (mgrStep w op) (mgrStep_neverSignal_some w op i h)

/-- Claim C3: once any operation sequence from process start has made
`never()` cache signal `i`, every further `never()` call returns the same
index `i` and changes nothing (lazily constructed, at most once), and the
cached signal is unaborted after every further operation sequence of the
library. -/
theorem never_singleton_unaborted (ops more : List MgrOp) (i : Nat)
    (h : (mgrRun mgrInit ops).neverSignal = some i) :
    (neverOp (mgrRun mgrInit ops)).1 = i ∧
    (neverOp (mgrRun mgrInit ops)).2 = mgrRun mgrInit ops ∧
    (neverOp (neverOp (mgrRun mgrInit ops)).2).1 = i ∧
    ((mgrRun (mgrRun mgrInit ops) more).sigs.getD i ⟨none, true⟩).reason = none := by
  have h1 : neverOp (mgrRun mgrInit ops) = (i, mgrRun mgrInit ops) := by
    simp [neverOp, h]
  have hinv : NeverInv (mgrRun (mgrRun mgrInit ops) more) :=
    neverInv_run more _ (neverInv_run ops mgrInit neverInv_init)
  have hmore : (mgrRun (mgrRun mgrInit ops) more).neverSignal = some i :=
    mgrRun_neverSignal_some more _ i h
  refine ⟨by rw [h1], by rw [h1], by rw [h1, h1], ?_⟩
  rw [hinv i hmore]

/-- Witness for C3 at a concrete input: `never()` is called, another
controller is allocated, aborts are delivered on both indices, then more
aborts and a second `never()` arrive. -/
theorem never_singleton_unaborted_witness :
    ((mgrRun mgrInit [MgrOp.never, MgrOp.newAbortable,
        MgrOp.abort 1 (Reason.custom 3), MgrOp.abort 0 (Reason.custom 3)]).neverSignal
      = some 0) ∧
    ((neverOp (mgrRun mgrInit [MgrOp.never, MgrOp.newAbortable,
        MgrOp.abort 1 (Reason.custom 3), MgrOp.abort 0 (Reason.custom 3)])).1 = 0 ∧
      (neverOp (mgrRun mgrInit [MgrOp.never, MgrOp.newAbortable,
        MgrOp.abort 1 (Reason.custom 3), MgrOp.abort 0 (Reason.custom 3)])).2
        = mgrRun mgrInit [MgrOp.never, MgrOp.newAbortable,
            MgrOp.abort 1 (Reason.custom 3), MgrOp.abort 0 (Reason.custom 3)] ∧
      (neverOp (neverOp (mgrRun mgrInit [MgrOp.never, MgrOp.newAbortable,
        MgrOp.abort 1 (Reason.custom 3), MgrOp.abort 0 (Reason.custom 3)])).2).1 = 0 ∧
      ((mgrRun (mgrRun mgrInit [MgrOp.never, MgrOp.newAbortable,
          MgrOp.abort 1 (Reason.custom 3), MgrOp.abort 0 (Reason.custom 3)])
          [MgrOp.abort 0 (Reason.custom 9), MgrOp.never]).sigs.getD 0
            ⟨none, true⟩).reason = none) :=
  ⟨by decide,
    never_singleton_unaborted
      [MgrOp.never, MgrOp.newAbortable,
        MgrOp.abort 1 (Reason.custom 3), MgrOp.abort 0 (Reason.custom 3)]
      [MgrOp.abort 0 (Reason.custom 9), MgrOp.never] 0 (by decide)⟩

end AbortSig
